import Mathlib

/-!
Shallow embedding of the "Skin of the Orange" notebook
(src/examples/Skin of the Orange.ipynb).

A dataset is a list of rows; each row is a list of rational entries,
mirroring the numpy 2-D arrays of the notebook:
  column 0 : simulation id (0..49)
  column 1 : train/test flag (0 = train, 1 = test)
  column 2 : class label (-1 / 1)
  columns 3.. : feature values (4 informative, optionally 6 noise).
The opaque library classifiers (sklearn SVC, pyearth Earth) are modelled
as function parameters supplying the quantities the notebook reads off
them (test error for a cost value; continuous prediction for a row).
-/

set_option maxRecDepth 10000

namespace Orange

abbrev Row := List ℚ

/-- Column access `row[i]`, defaulting to 0 off the end (rows in the data
have fixed width, so the default is never read on well-formed data). -/
def col (r : Row) (i : ℕ) : ℚ := r.getD i 0

/-- `np.vstack((a, b))`: row-wise concatenation of two tables. -/
def vstack (a b : List Row) : List Row := a ++ b

/-- `ds[:, :k]`: keep the first `k` columns of every row. -/
def firstCols (k : ℕ) (ds : List Row) : List Row := ds.map (fun r => r.take k)

/-- `ds[(ds[:, 1] == 1), :]`: the test records of a dataset. -/
def testRecords (ds : List Row) : List Row :=
  ds.filter (fun r => decide (col r 1 = 1))

/-- `np.sum(features**2, axis=1)` on `records[:, 3:7]`: the squared
distance from the origin of the four informative features. -/
def score (r : Row) : ℚ := (((r.drop 3).take 4).map (fun x => x ^ 2)).sum

/-- `y_hat = 1 - 2*((score <= 16) & (score >= 9))` for one record. -/
def bayesPred (r : Row) : ℚ :=
  1 - 2 * (if score r ≤ 16 ∧ 9 ≤ score r then (1 : ℚ) else 0)

/-- `sklearn.metrics.accuracy_score`: fraction of positions where the
predicted label equals the true label. -/
def accuracy_score (yTrue yPred : List ℚ) : ℚ :=
  (((yTrue.zip yPred).countP (fun p => decide (p.1 = p.2)) : ℕ) : ℚ) /
    (yTrue.length : ℚ)

/-- The Bayes error cell: filter the test records, classify each by the
squared-norm rule, and return `1 - accuracy_score` against column 2. -/
def bayes_error_rate (ds : List Row) : ℚ :=
  1 - accuracy_score ((testRecords ds).map (fun r => col r 2))
    ((testRecords ds).map bayesPred)

/-- The dataset the Bayes cell runs on:
`np.vstack((no_noise_ds, six_noise_ds[:, :7]))`. -/
def pooledDs (no_noise six_noise : List Row) : List Row :=
  vstack no_noise (firstCols 7 six_noise)

/-- The Bayes figure of the results table, printed under both the
no-noise and the six-noise column (the final `print` of the notebook). -/
def bayesTableRow (no_noise six_noise : List Row) : ℚ × ℚ :=
  (bayes_error_rate (pooledDs no_noise six_noise),
   bayes_error_rate (pooledDs no_noise six_noise))

/-- Modelled from the claim wording: assign the "surrounded" class (-1)
exactly when the squared norm lies in the closed interval [9, 16]. -/
def assignedLabel (r : Row) : ℚ :=
  if 9 ≤ score r ∧ score r ≤ 16 then -1 else 1

/-- Modelled from the claim wording: fraction of test records whose
assigned label differs from the true label in column 2. -/
def specBayesError (ds : List Row) : ℚ :=
  (((testRecords ds).countP
      (fun r => decide (¬ assignedLabel r = col r 2)) : ℕ) : ℚ) /
    ((testRecords ds).length : ℚ)

lemma countP_not_eq_length_sub {α : Type} (l : List α) (p : α → Bool) :
    l.countP (fun a => ! p a) = l.length - l.countP p := by
  induction l with
  | nil => simp
  | cons a l ih =>
      have hb := List.countP_le_length p (l := l)
      by_cases h : p a = true
      · simp [List.countP_cons, h, ih]
      · have h' : p a = false := by simpa using h
        simp [List.countP_cons, h', ih]
        omega

lemma countP_le_length' {α : Type} (l : List α) (p : α → Bool) :
    l.countP p ≤ l.length := List.countP_le_length p

lemma bayesPred_eq_assignedLabel (r : Row) : bayesPred r = assignedLabel r := by
  unfold bayesPred assignedLabel
  by_cases h : 9 ≤ score r ∧ score r ≤ 16
  · rw [if_pos ⟨h.2, h.1⟩, if_pos h]; norm_num
  · rw [if_neg (fun hc => h ⟨hc.2, hc.1⟩), if_neg h]; norm_num

lemma countP_zip_map {α : Type} (f g : α → ℚ) (p : ℚ × ℚ → Bool)
    (l : List α) :
    ((l.map f).zip (l.map g)).countP p = l.countP (fun a => p (f a, g a)) := by
  induction l with
  | nil => rfl
  | cons a l ih => simp [List.countP_cons, ih]

lemma accuracy_as_countP (tests : List Row) :
    accuracy_score (tests.map (fun r => col r 2)) (tests.map bayesPred) =
      ((tests.countP (fun r => decide (col r 2 = bayesPred r)) : ℕ) : ℚ) /
        (tests.length : ℚ) := by
  unfold accuracy_score
  rw [countP_zip_map]
  simp

/-- C1: the Bayes Error Oracle classifies each test record by whether the
sum of squares of the four informative features lies in [9, 16]
(assigning -1, the surrounded class, exactly then), and its output is the
fraction of test records whose assigned label differs from the true label
in column 2. -/
theorem bayes_oracle_correct (ds : List Row)
    (h : testRecords ds ≠ []) :
    (∀ r : Row, (bayesPred r = -1 ↔ 9 ≤ score r ∧ score r ≤ 16) ∧
      (bayesPred r = -1 ∨ bayesPred r = 1)) ∧
    bayes_error_rate ds = specBayesError ds := by
  constructor
  · intro r
    constructor
    · rw [bayesPred_eq_assignedLabel]
      unfold assignedLabel
      by_cases hc : 9 ≤ score r ∧ score r ≤ 16
      · simp [hc]
      · simp [hc]
        norm_num
    · rw [bayesPred_eq_assignedLabel]
      unfold assignedLabel
      by_cases hc : 9 ≤ score r ∧ score r ≤ 16
      · left; simp [hc]
      · right; simp [hc]
  · unfold bayes_error_rate specBayesError
    rw [accuracy_as_countP]
    set tests := testRecords ds with htests
    have hn : (tests.length : ℚ) ≠ 0 := by
      have : tests.length ≠ 0 := by
        intro h0
        exact h (List.length_eq_zero.mp h0)
      exact_mod_cast this
    have hcount : tests.countP (fun r => decide (¬ assignedLabel r = col r 2)) =
        tests.length - tests.countP (fun r => decide (col r 2 = bayesPred r)) := by
      have hpeq : (fun r => decide (¬ assignedLabel r = col r 2)) =
          (fun r => ! (fun s => decide (col s 2 = bayesPred s)) r) := by
        funext r
        show decide (¬ assignedLabel r = col r 2) =
          ! decide (col r 2 = bayesPred r)
        rw [bayesPred_eq_assignedLabel]
        by_cases hc : assignedLabel r = col r 2
        · simp [hc]
        · have hc2 : ¬ col r 2 = assignedLabel r := fun hx => hc hx.symm
          simp [hc, hc2]
      rw [hpeq, countP_not_eq_length_sub]
    rw [hcount]
    have hle : tests.countP (fun r => decide (col r 2 = bayesPred r)) ≤
        tests.length := List.countP_le_length _
    rw [Nat.cast_sub hle]
    field_simp

/-- Witness for C1 at a concrete two-record dataset. -/
theorem bayes_oracle_correct_witness :
    testRecords [[0, 1, 1, 3, 0, 0, 0], [0, 1, -1, 0, 0, 0, 0]] ≠ [] ∧
    ((∀ r : Row, (bayesPred r = -1 ↔ 9 ≤ score r ∧ score r ≤ 16) ∧
        (bayesPred r = -1 ∨ bayesPred r = 1)) ∧
      bayes_error_rate [[0, 1, 1, 3, 0, 0, 0], [0, 1, -1, 0, 0, 0, 0]] =
        specBayesError [[0, 1, 1, 3, 0, 0, 0], [0, 1, -1, 0, 0, 0, 0]]) :=
  ⟨by decide, bayes_oracle_correct _ (by decide)⟩

/-- `np.linspace(a, b, n)`: `n` evenly spaced values from `a` to `b`. -/
def np_linspace (a b : ℚ) (n : ℕ) : List ℚ :=
  (List.range n).map (fun (i : ℕ) => a + (i : ℚ) * (b - a) / ((n : ℚ) - 1))

/-- The cost grid of the SVC sweep: `np.linspace(0.01, 5, 20)`. -/
def costGrid : List ℚ := np_linspace (1 / 100) 5 20

/-- `ds[(ds[:, 0] == sim_id) & (ds[:, 1] == 0), :]`: one replicate's
training records. -/
def trainOf (ds : List Row) (s : ℕ) : List Row :=
  ds.filter (fun r => decide (col r 0 = (s : ℚ) ∧ col r 1 = 0))

/-- `ds[(ds[:, 0] == sim_id) & (ds[:, 1] == 1), :]`: one replicate's
test records. -/
def testOf (ds : List Row) (s : ℕ) : List Row :=
  ds.filter (fun r => decide (col r 0 = (s : ℚ) ∧ col r 1 = 1))

/-- The opaque sklearn classifier, seen through the only quantity the
notebook reads off it: `1 - SVC(C=C, ...).fit(train X, train y).score(test
X, test y)`, as a function of the cost and the train/test records. -/
abbrev SvcModel := ℚ → List Row → List Row → ℚ

/-- One step of the sweep: `if err < best_err: best_err, best_C = err, C`. -/
def sweepStep (errAt : ℚ → ℚ) (best : ℚ × ℚ) (C : ℚ) : ℚ × ℚ :=
  if errAt C < best.1 then (errAt C, C) else best

/-- The inner loop `for C in np.linspace(0.01, 5, 20)` starting from
`best_err, best_C = 1, 0`, returning the final `(best_err, best_C)`. -/
def sweepBest (errAt : ℚ → ℚ) : ℚ × ℚ := costGrid.foldl (sweepStep errAt) (1, 0)

/-- The `error_rates` array of `estimate_svc_on_data`: entry `sim_id` is
the best error of the cost sweep on that replicate. -/
def svc_error_rates (svcErr : SvcModel) (ds : List Row) : List ℚ :=
  (List.range 50).map
    (fun s => (sweepBest (fun C => svcErr C (trainOf ds s) (testOf ds s))).1)

/-- `np.mean`. -/
def np_mean (xs : List ℚ) : ℚ := xs.sum / (xs.length : ℚ)

/-- The mean of squared deviations (the square of `np.std`, which uses
`ddof=0`, i.e. divisor `len(xs)`). -/
def popVariance (xs : List ℚ) : ℚ :=
  ((xs.map (fun x => (x - np_mean xs) ^ 2)).sum) / (xs.length : ℚ)

/-- `np.std(xs)`: square root of the mean of squared deviations. -/
noncomputable def np_std (xs : List ℚ) : ℝ := Real.sqrt (popVariance xs)

/-- `estimate_svc_on_data`: `(np.mean(error_rates),
np.std(error_rates)/np.sqrt(50))`. -/
noncomputable def estimate_svc_on_data (svcErr : SvcModel) (ds : List Row) :
    ℚ × ℝ :=
  (np_mean (svc_error_rates svcErr ds),
   np_std (svc_error_rates svcErr ds) / Real.sqrt 50)

/-- A trivial concrete classifier model used by witnesses. -/
def zeroSvc : SvcModel := fun _ _ _ => 0

lemma sweep_foldl_min (f : ℚ → ℚ) :
    ∀ (l : List ℚ) (b : ℚ × ℚ),
      ((l.foldl (sweepStep f) b).1 = b.1 ∨
        ∃ C ∈ l, (l.foldl (sweepStep f) b).1 = f C) ∧
      (l.foldl (sweepStep f) b).1 ≤ b.1 ∧
      ∀ C ∈ l, (l.foldl (sweepStep f) b).1 ≤ f C := by
  intro l
  induction l with
  | nil =>
      intro b
      exact ⟨Or.inl rfl, le_refl _, fun C hC => absurd hC (List.not_mem_nil C)⟩
  | cons a l ih =>
      intro b
      have hstep : (sweepStep f b a).1 ≤ b.1 ∧ (sweepStep f b a).1 ≤ f a ∧
          ((sweepStep f b a).1 = b.1 ∨ (sweepStep f b a).1 = f a) := by
        unfold sweepStep
        by_cases h : f a < b.1
        · rw [if_pos h]; exact ⟨le_of_lt h, le_refl _, Or.inr rfl⟩
        · rw [if_neg h]; exact ⟨le_refl _, le_of_not_lt h, Or.inl rfl⟩
      obtain ⟨ih1, ih2, ih3⟩ := ih (sweepStep f b a)
      rw [List.foldl_cons]
      refine ⟨?_, ih2.trans hstep.1, ?_⟩
      · rcases ih1 with h1 | ⟨C, hC, hCe⟩
        · rcases hstep.2.2 with h2 | h2
          · exact Or.inl (h1.trans h2)
          · exact Or.inr ⟨a, List.mem_cons_self a l, h1.trans h2⟩
        · exact Or.inr ⟨C, List.mem_cons_of_mem a hC, hCe⟩
      · intro C hC
        rcases List.mem_cons.mp hC with rfl | hmem
        · exact ih2.trans hstep.2.1
        · exact ih3 C hmem

lemma getD_range_map (g : ℕ → ℚ) (n s : ℕ) (h : s < n) :
    ((List.range n).map g).getD s 0 = g s := by
  rw [List.getD_eq_getElem?_getD, List.getElem?_map, List.getElem?_range h]
  rfl

lemma mem_costGrid_head : (1 / 100 : ℚ) ∈ costGrid := by
  unfold costGrid np_linspace
  rw [List.mem_map]
  use 0
  constructor
  · exact List.mem_range.mpr (Nat.succ_pos 19)
  · push_cast
    norm_num

/-- C2: the per-replicate error stored by the SVC estimator equals the
minimum, over the 20 grid costs `np.linspace(0.01, 5, 20)`, of the
test-set error at that cost (it is attained at some grid cost and is a
lower bound of all of them), provided each grid error is at most 1. -/
theorem svc_sweep_min (svcErr : SvcModel) (ds : List Row) (s : ℕ)
    (hs : s < 50)
    (hb : ∀ C ∈ costGrid, svcErr C (trainOf ds s) (testOf ds s) ≤ 1) :
    (∃ C ∈ costGrid, (svc_error_rates svcErr ds).getD s 0 =
        svcErr C (trainOf ds s) (testOf ds s)) ∧
    ∀ C ∈ costGrid, (svc_error_rates svcErr ds).getD s 0 ≤
        svcErr C (trainOf ds s) (testOf ds s) := by
  have hrate : (svc_error_rates svcErr ds).getD s 0 =
      (sweepBest (fun C => svcErr C (trainOf ds s) (testOf ds s))).1 := by
    unfold svc_error_rates
    rw [getD_range_map _ _ _ hs]
  obtain ⟨h1, _, h3⟩ :=
    sweep_foldl_min (fun C => svcErr C (trainOf ds s) (testOf ds s))
      costGrid (1, 0)
  rw [hrate]
  unfold sweepBest
  refine ⟨?_, h3⟩
  rcases h1 with h1 | h1
  · exact ⟨1 / 100, mem_costGrid_head,
      le_antisymm (h3 _ mem_costGrid_head)
        (by rw [h1]; exact hb _ mem_costGrid_head)⟩
  · exact h1

/-- Witness for C2 with the trivial zero classifier on the empty dataset. -/
theorem svc_sweep_min_witness :
    ((0 : ℕ) < 50 ∧
      ∀ C ∈ costGrid, zeroSvc C (trainOf [] 0) (testOf [] 0) ≤ 1) ∧
    ((∃ C ∈ costGrid, (svc_error_rates zeroSvc []).getD 0 0 =
        zeroSvc C (trainOf [] 0) (testOf [] 0)) ∧
      ∀ C ∈ costGrid, (svc_error_rates zeroSvc []).getD 0 0 ≤
        zeroSvc C (trainOf [] 0) (testOf [] 0)) :=
  ⟨⟨by norm_num, fun C _ => by norm_num [zeroSvc]⟩,
    svc_sweep_min zeroSvc [] 0 (by norm_num)
      (fun C _ => by norm_num [zeroSvc])⟩

/-- The constructor arguments of the pyearth `Earth` model. -/
structure EarthConfig where
  terms_cap : ℕ
  degree_cap : ℕ
  pruning : Bool
deriving DecidableEq

/-- `Earth(max_terms=20, max_degree=4, enable_pruning=True)`. -/
def earthCfg : EarthConfig := ⟨20, 4, true⟩

/-- The opaque pyearth regressor, seen through the only quantity the
notebook reads off it: the continuous prediction on one row of the model
constructed with a given configuration and fit on the training records. -/
abbrev EarthModel := EarthConfig → List Row → Row → ℚ

/-- `np.sign`. -/
def np_sign (x : ℚ) : ℚ := if 0 < x then 1 else if x < 0 then -1 else 0

/-- The `error_rates` array of `estimate_mars_on_data`: one model per
replicate, predictions thresholded by `np.sign`, error by
`1 - accuracy_score`. -/
def mars_error_rates (earth : EarthModel) (ds : List Row) : List ℚ :=
  (List.range 50).map (fun s =>
    1 - accuracy_score ((testOf ds s).map (fun r => col r 2))
      ((testOf ds s).map (fun r => np_sign (earth earthCfg (trainOf ds s) r))))

/-- `estimate_mars_on_data`: `(np.mean(error_rates),
np.std(error_rates)/np.sqrt(50))`. -/
noncomputable def estimate_mars_on_data (earth : EarthModel) (ds : List Row) :
    ℚ × ℝ :=
  (np_mean (mars_error_rates earth ds),
   np_std (mars_error_rates earth ds) / Real.sqrt 50)

/-- A trivial concrete regressor model used by witnesses. -/
def oneEarth : EarthModel := fun _ _ _ => 1

lemma svc_error_rates_length (svcErr : SvcModel) (ds : List Row) :
    (svc_error_rates svcErr ds).length = 50 := by
  unfold svc_error_rates
  simp

lemma mars_error_rates_length (earth : EarthModel) (ds : List Row) :
    (mars_error_rates earth ds).length = 50 := by
  unfold mars_error_rates
  simp

/-- C3: both estimators return the pair (arithmetic mean of the 50
per-replicate errors, square root of the mean of squared deviations with
divisor 50 — the population standard deviation — divided by √50). -/
theorem estimators_mean_and_se (svcErr : SvcModel) (earth : EarthModel)
    (ds : List Row) :
    (svc_error_rates svcErr ds).length = 50 ∧
    (mars_error_rates earth ds).length = 50 ∧
    estimate_svc_on_data svcErr ds =
      (np_mean (svc_error_rates svcErr ds),
       Real.sqrt (((((svc_error_rates svcErr ds).map
           (fun x => (x - np_mean (svc_error_rates svcErr ds)) ^ 2)).sum) /
           50 : ℚ)) / Real.sqrt 50) ∧
    estimate_mars_on_data earth ds =
      (np_mean (mars_error_rates earth ds),
       Real.sqrt (((((mars_error_rates earth ds).map
           (fun x => (x - np_mean (mars_error_rates earth ds)) ^ 2)).sum) /
           50 : ℚ)) / Real.sqrt 50) := by
  refine ⟨svc_error_rates_length svcErr ds, mars_error_rates_length earth ds,
    ?_, ?_⟩
  · unfold estimate_svc_on_data np_std popVariance
    rw [svc_error_rates_length]
    norm_num
  · unfold estimate_mars_on_data np_std popVariance
    rw [mars_error_rates_length]
    norm_num

lemma accuracy_as_countP_fn (tests : List Row) (g : Row → ℚ) :
    accuracy_score (tests.map (fun r => col r 2)) (tests.map g) =
      ((tests.countP (fun r => decide (col r 2 = g r)) : ℕ) : ℚ) /
        (tests.length : ℚ) := by
  unfold accuracy_score
  rw [countP_zip_map]
  simp

lemma accuracy_mismatch (tests : List Row) (g : Row → ℚ) (h : tests ≠ []) :
    1 - accuracy_score (tests.map (fun r => col r 2)) (tests.map g) =
      ((tests.countP (fun r => decide (¬ g r = col r 2)) : ℕ) : ℚ) /
        (tests.length : ℚ) := by
  rw [accuracy_as_countP_fn]
  have hn : (tests.length : ℚ) ≠ 0 := by
    have h0 : tests.length ≠ 0 := fun h0 => h (List.length_eq_zero.mp h0)
    exact_mod_cast h0
  have hpeq : (fun r => decide (¬ g r = col r 2)) =
      (fun r => ! (fun s => decide (col s 2 = g s)) r) := by
    funext r
    show decide (¬ g r = col r 2) = ! decide (col r 2 = g r)
    by_cases hc : g r = col r 2
    · simp [hc]
    · have hc2 : ¬ col r 2 = g r := fun hx => hc hx.symm
      simp [hc, hc2]
  rw [hpeq, countP_not_eq_length_sub]
  have hle := List.countP_le_length (l := tests)
    (fun s => decide (col s 2 = g s))
  rw [Nat.cast_sub hle]
  field_simp

/-- C4: per replicate the MARS estimator fits one model (constructed with
`max_terms=20, max_degree=4, enable_pruning=True`), thresholds its
continuous predictions at zero with `np.sign`, and stores the resulting
misclassification fraction; no cost sweep is involved. -/
theorem mars_single_fit_threshold (earth : EarthModel) (ds : List Row)
    (s : ℕ) (hs : s < 50) (ht : testOf ds s ≠ []) :
    (mars_error_rates earth ds).getD s 0 =
      (((testOf ds s).countP (fun r =>
          decide (¬ np_sign (earth earthCfg (trainOf ds s) r) = col r 2))
          : ℕ) : ℚ) / ((testOf ds s).length : ℚ) ∧
    (∀ x : ℚ, (0 < x → np_sign x = 1) ∧ (x < 0 → np_sign x = -1) ∧
      (x = 0 → np_sign x = 0)) ∧
    earthCfg = ⟨20, 4, true⟩ := by
  refine ⟨?_, ?_, rfl⟩
  · have hval : (mars_error_rates earth ds).getD s 0 =
        1 - accuracy_score ((testOf ds s).map (fun r => col r 2))
          ((testOf ds s).map
            (fun r => np_sign (earth earthCfg (trainOf ds s) r))) := by
      unfold mars_error_rates
      rw [getD_range_map _ _ _ hs]
    rw [hval, accuracy_mismatch _ _ ht]
  · intro x
    refine ⟨fun hx => ?_, fun hx => ?_, fun hx => ?_⟩
    · unfold np_sign
      rw [if_pos hx]
    · unfold np_sign
      rw [if_neg (not_lt.mpr (le_of_lt hx)), if_pos hx]
    · subst hx
      unfold np_sign
      rw [if_neg (lt_irrefl 0), if_neg (lt_irrefl 0)]

/-- Witness for C4: one test record with label 1, constant prediction 1. -/
theorem mars_single_fit_threshold_witness :
    ((0 : ℕ) < 50 ∧ testOf [[0, 1, 1]] 0 ≠ []) ∧
    ((mars_error_rates oneEarth [[0, 1, 1]]).getD 0 0 =
      (((testOf [[0, 1, 1]] 0).countP (fun r =>
          decide (¬ np_sign (oneEarth earthCfg (trainOf [[0, 1, 1]] 0) r) =
            col r 2)) : ℕ) : ℚ) / ((testOf [[0, 1, 1]] 0).length : ℚ) ∧
    (∀ x : ℚ, (0 < x → np_sign x = 1) ∧ (x < 0 → np_sign x = -1) ∧
      (x = 0 → np_sign x = 0)) ∧
    earthCfg = ⟨20, 4, true⟩) :=
  ⟨⟨by norm_num, by decide⟩,
    mars_single_fit_threshold oneEarth [[0, 1, 1]] 0 (by norm_num) (by decide)⟩

lemma col_take (r : Row) (k i : ℕ) (h : i < k) : col (r.take k) i = col r i := by
  unfold col
  rw [List.getD_eq_getElem?_getD, List.getD_eq_getElem?_getD,
    List.getElem?_take, if_pos h]

lemma score_take7 (r : Row) : score (r.take 7) = score r := by
  unfold score
  rw [List.drop_take, List.take_take]
  norm_num

lemma bayesPred_take7 (r : Row) : bayesPred (r.take 7) = bayesPred r := by
  unfold bayesPred
  rw [score_take7]

lemma testRecords_firstCols (ds : List Row) :
    testRecords (firstCols 7 ds) = firstCols 7 (testRecords ds) := by
  unfold testRecords firstCols
  rw [List.filter_map]
  have hp : ((fun r => decide (col r 1 = 1)) ∘ (fun r : Row => r.take 7)) =
      (fun r : Row => decide (col r 1 = 1)) := by
    funext r
    show decide (col (r.take 7) 1 = 1) = decide (col r 1 = 1)
    rw [col_take r 7 1 (by norm_num)]
  rw [hp]

lemma bayes_error_rate_firstCols (ds : List Row) :
    bayes_error_rate (firstCols 7 ds) = bayes_error_rate ds := by
  unfold bayes_error_rate
  rw [testRecords_firstCols]
  unfold firstCols
  have h2 : ((fun r : Row => col r 2) ∘ (fun r : Row => r.take 7)) =
      (fun r : Row => col r 2) := by
    funext r
    exact col_take r 7 2 (by norm_num)
  have h3 : (bayesPred ∘ (fun r : Row => r.take 7)) = bayesPred := by
    funext r
    exact bayesPred_take7 r
  rw [List.map_map, List.map_map, h2, h3]

/-- C5: the Bayes error is computed once, on the dataset pooling the
noise-free rows with the first 7 columns of the noisy rows, the results
table prints that single value under both columns, and truncating any
dataset to its first 7 columns (the 4 informative features) leaves the
Bayes error unchanged. -/
theorem bayes_once_pooled (no_noise six_noise : List Row) :
    (bayesTableRow no_noise six_noise).1 =
      (bayesTableRow no_noise six_noise).2 ∧
    (bayesTableRow no_noise six_noise).1 =
      bayes_error_rate (vstack no_noise (firstCols 7 six_noise)) ∧
    (∀ ds : List Row, bayes_error_rate (firstCols 7 ds) =
      bayes_error_rate ds) :=
  ⟨rfl, rfl, bayes_error_rate_firstCols⟩

lemma sum_nonneg_le_length (xs : List ℚ) (h : ∀ x ∈ xs, 0 ≤ x ∧ x ≤ 1) :
    0 ≤ xs.sum ∧ xs.sum ≤ (xs.length : ℚ) := by
  induction xs with
  | nil => norm_num
  | cons a l ih =>
      obtain ⟨ha0, ha1⟩ := h a (List.mem_cons_self a l)
      obtain ⟨hl0, hl1⟩ := ih (fun x hx => h x (List.mem_cons_of_mem a hx))
      constructor
      · simpa using add_nonneg ha0 hl0
      · simp only [List.sum_cons, List.length_cons]
        push_cast
        linarith

lemma np_mean_mem_unit (xs : List ℚ) (hne : xs ≠ [])
    (h : ∀ x ∈ xs, 0 ≤ x ∧ x ≤ 1) : 0 ≤ np_mean xs ∧ np_mean xs ≤ 1 := by
  obtain ⟨h0, h1⟩ := sum_nonneg_le_length xs h
  have hn : (0 : ℚ) < (xs.length : ℚ) := by
    exact_mod_cast List.length_pos.mpr hne
  unfold np_mean
  exact ⟨div_nonneg h0 (le_of_lt hn), (div_le_one hn).mpr h1⟩

lemma popVariance_mem_unit (xs : List ℚ) (hne : xs ≠ [])
    (h : ∀ x ∈ xs, 0 ≤ x ∧ x ≤ 1) :
    0 ≤ popVariance xs ∧ popVariance xs ≤ 1 := by
  obtain ⟨hm0, hm1⟩ := np_mean_mem_unit xs hne h
  have hsq : ∀ y ∈ xs.map (fun x => (x - np_mean xs) ^ 2), 0 ≤ y ∧ y ≤ 1 := by
    intro y hy
    obtain ⟨x, hx, rfl⟩ := List.mem_map.mp hy
    obtain ⟨hx0, hx1⟩ := h x hx
    refine ⟨sq_nonneg _, ?_⟩
    have key : (0 : ℚ) ≤ (1 - (x - np_mean xs)) * (1 + (x - np_mean xs)) :=
      mul_nonneg (by linarith) (by linarith)
    nlinarith [key]
  obtain ⟨hs0, hs1⟩ := sum_nonneg_le_length _ hsq
  rw [List.length_map] at hs1
  have hn : (0 : ℚ) < (xs.length : ℚ) := by
    exact_mod_cast List.length_pos.mpr hne
  unfold popVariance
  exact ⟨div_nonneg hs0 (le_of_lt hn), (div_le_one hn).mpr hs1⟩

lemma np_std_se_bounds (xs : List ℚ) (hne : xs ≠ [])
    (h : ∀ x ∈ xs, 0 ≤ x ∧ x ≤ 1) :
    0 ≤ np_std xs / Real.sqrt 50 ∧
      np_std xs / Real.sqrt 50 ≤ 1 / Real.sqrt 50 := by
  obtain ⟨hv0, hv1⟩ := popVariance_mem_unit xs hne h
  have hs50 : (0 : ℝ) < Real.sqrt 50 := Real.sqrt_pos.mpr (by norm_num)
  have hstd : np_std xs ≤ 1 := by
    unfold np_std
    have hcast : ((popVariance xs : ℚ) : ℝ) ≤ 1 := by exact_mod_cast hv1
    calc Real.sqrt ((popVariance xs : ℚ) : ℝ) ≤ Real.sqrt 1 :=
          Real.sqrt_le_sqrt hcast
      _ = 1 := Real.sqrt_one
  constructor
  · exact div_nonneg (Real.sqrt_nonneg _) (le_of_lt hs50)
  · gcongr

lemma svc_error_rates_ne_nil (svcErr : SvcModel) (ds : List Row) :
    svc_error_rates svcErr ds ≠ [] := by
  intro h0
  have hl := svc_error_rates_length svcErr ds
  rw [h0] at hl
  simp at hl

lemma mars_error_rates_ne_nil (earth : EarthModel) (ds : List Row) :
    mars_error_rates earth ds ≠ [] := by
  intro h0
  have hl := mars_error_rates_length earth ds
  rw [h0] at hl
  simp at hl

/-- C6: when each per-replicate error rate lies in [0, 1], the mean
returned by either estimator lies in [0, 1] and the returned standard
error lies in [0, 1/√50]. -/
theorem estimator_output_bounds (svcErr : SvcModel) (earth : EarthModel)
    (ds dsm : List Row)
    (hsvc : ∀ x ∈ svc_error_rates svcErr ds, 0 ≤ x ∧ x ≤ 1)
    (hmars : ∀ x ∈ mars_error_rates earth dsm, 0 ≤ x ∧ x ≤ 1) :
    (0 ≤ (estimate_svc_on_data svcErr ds).1 ∧
      (estimate_svc_on_data svcErr ds).1 ≤ 1) ∧
    (0 ≤ (estimate_svc_on_data svcErr ds).2 ∧
      (estimate_svc_on_data svcErr ds).2 ≤ 1 / Real.sqrt 50) ∧
    (0 ≤ (estimate_mars_on_data earth dsm).1 ∧
      (estimate_mars_on_data earth dsm).1 ≤ 1) ∧
    (0 ≤ (estimate_mars_on_data earth dsm).2 ∧
      (estimate_mars_on_data earth dsm).2 ≤ 1 / Real.sqrt 50) :=
  ⟨np_mean_mem_unit _ (svc_error_rates_ne_nil svcErr ds) hsvc,
   np_std_se_bounds _ (svc_error_rates_ne_nil svcErr ds) hsvc,
   np_mean_mem_unit _ (mars_error_rates_ne_nil earth dsm) hmars,
   np_std_se_bounds _ (mars_error_rates_ne_nil earth dsm) hmars⟩

lemma sweepBest_const (c : ℚ) (hc : c ≤ 1) : (sweepBest (fun _ => c)).1 = c := by
  obtain ⟨h1, _, h3⟩ := sweep_foldl_min (fun _ => c) costGrid (1, 0)
  unfold sweepBest
  rcases h1 with h1 | h1
  · have hle := h3 _ mem_costGrid_head
    rw [h1] at hle
    rw [h1]
    exact (le_antisymm hc hle).symm
  · obtain ⟨C, _, hCe⟩ := h1
    exact hCe

lemma zeroSvc_rates_mem : ∀ x ∈ svc_error_rates zeroSvc [], 0 ≤ x ∧ x ≤ 1 := by
  intro x hx
  unfold svc_error_rates at hx
  obtain ⟨s, _, rfl⟩ := List.mem_map.mp hx
  have hfn : (fun C => zeroSvc C (trainOf [] s) (testOf [] s)) =
      (fun _ : ℚ => (0 : ℚ)) := rfl
  rw [hfn, sweepBest_const 0 (by norm_num)]
  norm_num

lemma oneEarth_rates_mem : ∀ x ∈ mars_error_rates oneEarth [], 0 ≤ x ∧ x ≤ 1 := by
  intro x hx
  unfold mars_error_rates at hx
  obtain ⟨s, _, rfl⟩ := List.mem_map.mp hx
  have htest : testOf ([] : List Row) s = [] := rfl
  rw [htest]
  norm_num [accuracy_score]

/-- Witness for C6 with the trivial models on the empty dataset. -/
theorem estimator_output_bounds_witness :
    ((∀ x ∈ svc_error_rates zeroSvc [], 0 ≤ x ∧ x ≤ 1) ∧
      (∀ x ∈ mars_error_rates oneEarth [], 0 ≤ x ∧ x ≤ 1)) ∧
    ((0 ≤ (estimate_svc_on_data zeroSvc []).1 ∧
        (estimate_svc_on_data zeroSvc []).1 ≤ 1) ∧
      (0 ≤ (estimate_svc_on_data zeroSvc []).2 ∧
        (estimate_svc_on_data zeroSvc []).2 ≤ 1 / Real.sqrt 50) ∧
      (0 ≤ (estimate_mars_on_data oneEarth []).1 ∧
        (estimate_mars_on_data oneEarth []).1 ≤ 1) ∧
      (0 ≤ (estimate_mars_on_data oneEarth []).2 ∧
        (estimate_mars_on_data oneEarth []).2 ≤ 1 / Real.sqrt 50)) :=
  ⟨⟨zeroSvc_rates_mem, oneEarth_rates_mem⟩,
    estimator_output_bounds zeroSvc oneEarth [] []
      zeroSvc_rates_mem oneEarth_rates_mem⟩

lemma mem_trainOf_iff (ds : List Row) (s : ℕ) (r : Row) :
    r ∈ trainOf ds s ↔ r ∈ ds ∧ (col r 0 = (s : ℚ) ∧ col r 1 = 0) := by
  unfold trainOf
  rw [List.mem_filter]
  simp only [decide_eq_true_eq]

lemma mem_testOf_iff (ds : List Row) (s : ℕ) (r : Row) :
    r ∈ testOf ds s ↔ r ∈ ds ∧ (col r 0 = (s : ℚ) ∧ col r 1 = 1) := by
  unfold testOf
  rw [List.mem_filter]
  simp only [decide_eq_true_eq]

/-- C7: when every record's flag is 0 or 1, the training and test
subsets selected for a replicate are disjoint and together are exactly
the records of the dataset carrying that replicate id. -/
theorem replicate_split_partition (ds : List Row) (s : ℕ)
    (h : ∀ r ∈ ds, col r 1 = 0 ∨ col r 1 = 1) :
    (∀ r : Row, ¬ (r ∈ trainOf ds s ∧ r ∈ testOf ds s)) ∧
    (∀ r : Row, (r ∈ trainOf ds s ∨ r ∈ testOf ds s) ↔
      (r ∈ ds ∧ col r 0 = (s : ℚ))) := by
  constructor
  · rintro r ⟨h1, h2⟩
    rw [mem_trainOf_iff] at h1
    rw [mem_testOf_iff] at h2
    exact absurd (h1.2.2.symm.trans h2.2.2) (by norm_num)
  · intro r
    constructor
    · rintro (hr | hr)
      · rw [mem_trainOf_iff] at hr
        exact ⟨hr.1, hr.2.1⟩
      · rw [mem_testOf_iff] at hr
        exact ⟨hr.1, hr.2.1⟩
    · rintro ⟨hmem, hsim⟩
      rcases h r hmem with h0 | h1
      · exact Or.inl ((mem_trainOf_iff ds s r).mpr ⟨hmem, hsim, h0⟩)
      · exact Or.inr ((mem_testOf_iff ds s r).mpr ⟨hmem, hsim, h1⟩)

/-- Witness for C7 at a two-record dataset, replicate 0. -/
theorem replicate_split_partition_witness :
    (∀ r ∈ [[0, 0, 5], [0, 1, 7]], col r 1 = 0 ∨ col r 1 = 1) ∧
    ((∀ r : Row, ¬ (r ∈ trainOf [[0, 0, 5], [0, 1, 7]] 0 ∧
        r ∈ testOf [[0, 0, 5], [0, 1, 7]] 0)) ∧
      (∀ r : Row, (r ∈ trainOf [[0, 0, 5], [0, 1, 7]] 0 ∨
          r ∈ testOf [[0, 0, 5], [0, 1, 7]] 0) ↔
        (r ∈ [[0, 0, 5], [0, 1, 7]] ∧ col r 0 = ((0 : ℕ) : ℚ)))) :=
  ⟨by decide, replicate_split_partition [[0, 0, 5], [0, 1, 7]] 0 (by decide)⟩

/-- A dataset with a single training record for replicate 0, used to
produce non-constant per-replicate error rates. -/
def dsC8 : List Row := [[0, 0, 0]]

/-- A classifier model whose error is 0 when trained on at least one
record and 1 otherwise. -/
def svcC8 : SvcModel := fun _ tr _ => if tr.isEmpty then 1 else 0

lemma trainOf_dsC8 (s : ℕ) : trainOf dsC8 s = if s = 0 then dsC8 else [] := by
  by_cases hs : s = 0
  · subst hs
    unfold trainOf dsC8
    simp [col]
  · rw [if_neg hs]
    unfold trainOf dsC8
    have hne : ((0 : ℚ) ≠ (s : ℚ)) := by exact_mod_cast (Ne.symm hs)
    simp [col, hne]

lemma svcC8_fun (s : ℕ) :
    (fun C => svcC8 C (trainOf dsC8 s) (testOf dsC8 s)) =
      (fun _ : ℚ => if s = 0 then (0 : ℚ) else 1) := by
  funext C
  unfold svcC8
  rw [trainOf_dsC8]
  by_cases hs : s = 0
  · simp [hs, dsC8]
  · simp [hs]

lemma svc_error_rates_C8 :
    svc_error_rates svcC8 dsC8 = 0 :: List.replicate 49 1 := by
  unfold svc_error_rates
  have hmap : ∀ s : ℕ,
      (sweepBest (fun C => svcC8 C (trainOf dsC8 s) (testOf dsC8 s))).1 =
        if s = 0 then (0 : ℚ) else 1 := by
    intro s
    rw [svcC8_fun s, sweepBest_const _ (by split <;> norm_num)]
  simp only [hmap]
  rw [List.range_succ_eq_map, List.map_cons, List.map_map]
  have hcomp : ((fun s : ℕ => if s = 0 then (0 : ℚ) else 1) ∘ Nat.succ) =
      (fun _ : ℕ => (1 : ℚ)) := by
    funext s
    simp [Nat.succ_ne_zero]
  rw [hcomp]
  simp

lemma np_mean_C8 : np_mean (0 :: List.replicate 49 1) = 49 / 50 := by
  unfold np_mean
  rw [List.sum_cons, List.sum_replicate, nsmul_eq_mul, List.length_cons,
    List.length_replicate]
  push_cast
  norm_num

lemma ssq_C8 : ((0 :: List.replicate 49 1 : List ℚ).map
    (fun x => (x - np_mean (0 :: List.replicate 49 1)) ^ 2)).sum = 49 / 50 := by
  simp only [np_mean_C8]
  rw [List.map_cons, List.map_replicate, List.sum_cons, List.sum_replicate]
  rw [nsmul_eq_mul]
  norm_num

lemma popVar_C8 : popVariance (0 :: List.replicate 49 1) = 49 / 2500 := by
  unfold popVariance
  rw [ssq_C8]
  simp
  norm_num

/-- C8 counterexample: at the explicit model `svcC8` and dataset `dsC8`
the returned standard error (np.std, divisor 50, divided by √50) is NOT
the sample standard deviation (divisor 49) divided by √50. -/
theorem svc_se_not_sample_std :
    (estimate_svc_on_data svcC8 dsC8).2 ≠
      Real.sqrt (((((svc_error_rates svcC8 dsC8).map
        (fun x => (x - np_mean (svc_error_rates svcC8 dsC8)) ^ 2)).sum) /
        49 : ℚ)) / Real.sqrt 50 := by
  have hse : (estimate_svc_on_data svcC8 dsC8).2 =
      Real.sqrt ((49 / 2500 : ℚ)) / Real.sqrt 50 := by
    show np_std (svc_error_rates svcC8 dsC8) / Real.sqrt 50 = _
    unfold np_std
    rw [svc_error_rates_C8, popVar_C8]
  have hsample : (((((svc_error_rates svcC8 dsC8).map
      (fun x => (x - np_mean (svc_error_rates svcC8 dsC8)) ^ 2)).sum) /
      49 : ℚ)) = 49 / 2450 := by
    simp only [svc_error_rates_C8]
    rw [ssq_C8]
    norm_num
  rw [hse, hsample]
  have h1 : ((49 / 2500 : ℚ) : ℝ) < ((49 / 2450 : ℚ) : ℝ) := by
    push_cast
    norm_num
  have h0 : (0 : ℝ) ≤ ((49 / 2500 : ℚ) : ℝ) := by positivity
  have h2 : Real.sqrt ((49 / 2500 : ℚ)) < Real.sqrt ((49 / 2450 : ℚ)) :=
    Real.sqrt_lt_sqrt h0 h1
  have h50 : (0 : ℝ) < Real.sqrt 50 := Real.sqrt_pos.mpr (by norm_num)
  have hlt : Real.sqrt ((49 / 2500 : ℚ)) / Real.sqrt 50 <
      Real.sqrt ((49 / 2450 : ℚ)) / Real.sqrt 50 := by gcongr
  exact ne_of_lt hlt

/-- C8 as amended: the returned standard error is the population
standard deviation (divisor 50, np.std's default `ddof=0`) of the 50
per-replicate error rates, divided by √50. -/
theorem svc_se_is_pop_std (svcErr : SvcModel) (ds : List Row) :
    (estimate_svc_on_data svcErr ds).2 =
      Real.sqrt (((((svc_error_rates svcErr ds).map
        (fun x => (x - np_mean (svc_error_rates svcErr ds)) ^ 2)).sum) /
        50 : ℚ)) / Real.sqrt 50 := by
  show np_std (svc_error_rates svcErr ds) / Real.sqrt 50 = _
  unfold np_std popVariance
  rw [svc_error_rates_length]
  norm_num

/-- C9: the estimator's output is a function of the dataset and the
(opaque, assumed deterministic) fitting procedure alone: two runs with
pointwise-equal fitting procedures on the same dataset return the same
(mean, standard error) pair. -/
theorem estimator_deterministic (svcErr1 svcErr2 : SvcModel) (ds : List Row)
    (h : ∀ (C : ℚ) (tr te : List Row), svcErr1 C tr te = svcErr2 C tr te) :
    estimate_svc_on_data svcErr1 ds = estimate_svc_on_data svcErr2 ds := by
  have hfn : svcErr1 = svcErr2 :=
    funext fun C => funext fun tr => funext fun te => h C tr te
  rw [hfn]

/-- Witness for C9 with the trivial zero classifier. -/
theorem estimator_deterministic_witness :
    (∀ (C : ℚ) (tr te : List Row), zeroSvc C tr te = zeroSvc C tr te) ∧
    estimate_svc_on_data zeroSvc [] = estimate_svc_on_data zeroSvc [] :=
  ⟨fun _ _ _ => rfl,
    estimator_deterministic zeroSvc zeroSvc [] (fun _ _ _ => rfl)⟩

/-- C10: a test record whose continuous prediction is exactly 0 receives
the thresholded label `np.sign(0) = 0`, which differs from both possible
true labels -1 and 1, so it is counted as misclassified: with a
constant-zero predictor and a single test record the stored error rate
is 1 whatever the true label. -/
theorem sign_zero_always_misclassified (lab : ℚ) (h : lab = -1 ∨ lab = 1) :
    np_sign 0 = 0 ∧ np_sign 0 ≠ lab ∧
    (mars_error_rates (fun _ _ _ => 0) [[0, 1, lab]]).getD 0 0 = 1 := by
  have hsign : np_sign 0 = 0 := by
    unfold np_sign
    rw [if_neg (lt_irrefl 0), if_neg (lt_irrefl 0)]
  refine ⟨hsign, ?_, ?_⟩
  · rw [hsign]
    rcases h with rfl | rfl <;> norm_num
  · have hval : ∀ lb : ℚ,
        (mars_error_rates (fun _ _ _ => 0) [[0, 1, lb]]).getD 0 0 =
          1 - accuracy_score ((testOf [[0, 1, lb]] 0).map (fun r => col r 2))
            ((testOf [[0, 1, lb]] 0).map (fun r => np_sign 0)) := by
      intro lb
      unfold mars_error_rates
      rw [getD_range_map _ _ _ (by norm_num)]
    rcases h with rfl | rfl
    · rw [hval, show testOf [[0, 1, (-1 : ℚ)]] 0 = [[0, 1, (-1 : ℚ)]] by decide]
      simp only [hsign]
      norm_num [accuracy_score, col, List.getD_cons_succ, List.getD_cons_zero,
        List.countP_cons]
    · rw [hval, show testOf [[0, 1, (1 : ℚ)]] 0 = [[0, 1, (1 : ℚ)]] by decide]
      simp only [hsign]
      norm_num [accuracy_score, col, List.getD_cons_succ, List.getD_cons_zero,
        List.countP_cons]

/-- Witness for C10 at true label 1. -/
theorem sign_zero_always_misclassified_witness :
    ((1 : ℚ) = -1 ∨ (1 : ℚ) = 1) ∧
    (np_sign 0 = 0 ∧ np_sign 0 ≠ 1 ∧
      (mars_error_rates (fun _ _ _ => 0) [[0, 1, 1]]).getD 0 0 = 1) :=
  ⟨Or.inr rfl, sign_zero_always_misclassified 1 (Or.inr rfl)⟩

end Orange
